import Mathlib

/-!
Verification of the DICOMweb client core (dicomweb_client/api.py):
the DICOM-JSON data-element/data-set builder, the multipart MIME
encode/decode layer, and the photometric-interpretation mapping.

Byte strings are modelled as `List Nat` (one entry per byte); Python
strings as Lean `String`.  Fallible Python code is modelled with
`Except PyErr`, where `PyErr` distinguishes the library's own
`DICOMJSONError` from the built-in exception classes that the code can
raise (KeyError, IndexError, TypeError, ValueError, AttributeError).
-/

set_option autoImplicit false

namespace DicomWeb

/-! ### Generic list machinery: prefix test and first-occurrence split -/

/-- Boolean test: the first argument is a leading segment of the second. -/
def startsWithL {α : Type} [DecidableEq α] : List α → List α → Bool
  | [], _ => true
  | _ :: _, [] => false
  | a :: as, b :: bs => if a = b then startsWithL as bs else false

/-- Split a list at the first occurrence of the pattern `d`, returning the
part before the occurrence and the part after it (the occurrence itself
removed); `none` when `d` does not occur. -/
def splitFirst {α : Type} [DecidableEq α] (d : List α) : List α → Option (List α × List α)
  | [] => if startsWithL d [] = true then some ([], []) else none
  | a :: t =>
    if startsWithL d (a :: t) = true then some ([], (a :: t).drop d.length)
    else (splitFirst d t).map (fun xy => (a :: xy.1, xy.2))

/-! ### Byte strings: UTF-8 encoding of Python strings -/

/-- UTF-8 encoding of a single unicode scalar value, as byte values.
Models CPython `str.encode` of one character. -/
def utf8Char (ch : Char) : List Nat :=
  let n := ch.toNat
  if n < 0x80 then [n]
  else if n < 0x800 then [0xC0 + n / 0x40, 0x80 + n % 0x40]
  else if n < 0x10000 then
    [0xE0 + n / 0x1000, 0x80 + n / 0x40 % 0x40, 0x80 + n % 0x40]
  else
    [0xF0 + n / 0x40000, 0x80 + n / 0x1000 % 0x40, 0x80 + n / 0x40 % 0x40,
      0x80 + n % 0x40]

/-- Byte sequence of a Python string under UTF-8, models `s.encode('utf-8')`. -/
def strBytes (s : String) : List Nat :=
  s.data.flatMap utf8Char

/-! ### Python exception model -/

/-- Exceptions that the modelled code can raise.  `dicomJson` is the
library's own `DICOMJSONError`; the rest are Python built-ins.  `fuelOut`
is the recursion-fuel sentinel of the embedding and corresponds to no
Python behaviour. -/
inductive PyErr where
  | dicomJson (msg : String)
  | keyError
  | indexError
  | typeError
  | valueError
  | attributeError
  | fuelOut
deriving DecidableEq

/-! ### Multipart encoding (`DICOMWebClient._encode_multipart_message`) -/

/-- Python `str.split(sep)` for a one-character separator, on char lists.
Keeps empty segments, like Python. -/
def splitOnChar (c : Char) : List Char → List (List Char)
  | [] => [[]]
  | x :: xs =>
    let r := splitOnChar c xs
    if x = c then [] :: r
    else
      match r with
      | h :: t => (x :: h) :: t
      | [] => [[x]]

/-- Python `s.split(c)` on strings. -/
def pySplitChar (s : String) (c : Char) : List String :=
  (splitOnChar c s.data).map (fun l => String.mk l)

/-- Models the Python slice `seg[seg.find('=') + 2 : -1]` used by
`_encode_multipart_message` to pull the value out of a
`name="value"` segment positionally.  `str.find` yields `-1` when
`'='` is absent, so the slice then starts at index 1. -/
def pyExtract (s : String) : String :=
  let cs := s.data
  let start :=
    match cs.findIdx? (fun c => c = '=') with
    | some j => j + 2
    | none => 1
  String.mk ((cs.drop start).take (cs.length - 1 - start))

/-- The content-type parsing of `_encode_multipart_message`:
`multipart, content_type, boundary = content_type.split(';')` followed by
the positional slices.  Returns `(type, boundary)`; `none` models the
`ValueError` that tuple unpacking raises when the split does not yield
exactly three segments. -/
def encCT (ct : String) : Option (String × String) :=
  match pySplitChar ct ';' with
  | [_, seg1, seg2] => some (pyExtract seg1, pyExtract seg2)
  | _ => none

/-- The byte body produced by `_encode_multipart_message` for inner type
`t` and boundary `b`:
`\r\n--{b}\r\nContent-Type: {t}\r\n\r\n{payload}` per part, then the
closing `\r\n--{b}--`. -/
def encBody (t b : String) (data : List (List Nat)) : List Nat :=
  data.flatMap (fun payload =>
    strBytes ("\r\n--" ++ b ++ "\r\nContent-Type: " ++ t ++ "\r\n\r\n") ++ payload)
  ++ strBytes ("\r\n--" ++ b ++ "--")

/-- `DICOMWebClient._encode_multipart_message`.  The body is produced for
whatever the positional parse extracted; no parameter names are
validated. -/
def encodeMultipart (data : List (List Nat)) (content_type : String) :
    Except PyErr (List Nat) :=
  match encCT content_type with
  | none => .error .valueError
  | some (t, b) => .ok (encBody t b data)

/-! ### Multipart decoding (`DICOMWebClient._decode_multipart_message`)

The decoding routine delegates to Python's `email` parser.  The
definitions below model the behaviour of that parser on the inputs this
client handles, at the byte level: boundary-parameter extraction from the
top content type, locating the start boundary, splitting the body on
`\r\n--boundary` delimiters, separating each part's header block from its
payload at the first blank line, and the `walk`-and-collect loop of
`_decode_multipart_message`, which skips genuinely multipart container
parts and appends every other part's payload. -/

/-- ASCII lowercasing of bytes. -/
def lowerB (l : List Nat) : List Nat :=
  l.map (fun x => if 65 ≤ x ∧ x ≤ 90 then x + 32 else x)

/-- Strip leading and trailing spaces from a byte sequence. -/
def trimB (l : List Nat) : List Nat :=
  ((l.dropWhile (fun x => x == 32)).reverse.dropWhile (fun x => x == 32)).reverse

/-- The email parser's `get_content_maintype()`: the content-type value up
to the first `;`, trimmed and lowercased, then up to the first `/`. -/
def emailMaintype (ctB : List Nat) : List Nat :=
  (lowerB (trimB (ctB.takeWhile (fun x => x != 59)))).takeWhile (fun x => x != 47)

/-- Strip one matching pair of surrounding double quotes. -/
def unquoteB (l : List Nat) : List Nat :=
  if 2 ≤ l.length ∧ l.head? = some 34 ∧ l.getLast? = some 34 then
    (l.drop 1).dropLast
  else l

/-- The email parser's boundary-parameter lookup on the top-level
content-type value: the text after `boundary=` up to the next `;`, with
surrounding quotes removed; `none` when the parameter is absent. -/
def emailBoundary (ctB : List Nat) : Option (List Nat) :=
  match splitFirst (strBytes "boundary=") ctB with
  | none => none
  | some (_, rest) => some (unquoteB (rest.takeWhile (fun x => x != 59)))

/-- Consume the blank line that separates the synthesized header block
from the message body in `header.encode() + body`. -/
def stripBlank (body : List Nat) : List Nat :=
  if startsWithL [13, 10] body then body.drop 2
  else if startsWithL [10] body then body.drop 1
  else body

/-- Cut the text that follows the start boundary into raw part chunks, one
per delimiter occurrence; a chunk starting with `--` is the closing
marker.  When the closing delimiter is missing the remaining text forms
the final chunk. -/
def extractChunks (d : List Nat) : Nat → List Nat → List (List Nat)
  | 0, _ => []
  | fuel + 1, body =>
    if startsWithL [45, 45] body then []
    else
      match splitFirst d body with
      | some (chunk, rest) => chunk :: extractChunks d fuel rest
      | none => [body]

/-- Split one raw part chunk into its header block and payload at the
first blank line. -/
def parseChunk (c : List Nat) : List Nat × List Nat :=
  match splitFirst [13, 10, 13, 10] c with
  | some (hb, payload) => (hb, payload)
  | none => (c, [])

/-- The content-type value of a part header block; parts without a
`Content-Type` header default to `text/plain`. -/
def partContentType (hb : List Nat) : List Nat :=
  match splitFirst (strBytes "Content-Type: ") hb with
  | none => strBytes "text/plain"
  | some (_, rest) =>
    match splitFirst [13, 10] rest with
    | some (v, _) => v
    | none => rest

/-- The `message.walk()` loop of `_decode_multipart_message`: a part whose
content type is not `multipart/*` contributes its payload; a
`multipart/*` part whose body parses as multipart (boundary parameter
present and start boundary found) is a container that contributes only
what its sub-parts contribute; a `multipart/*` part that does not
actually parse as multipart (missing boundary parameter, or start
boundary nowhere in the body) is a defective leaf whose whole payload is
contributed. -/
def walkCollect : Nat → List Nat → List Nat → List (List Nat)
  | 0, _, _ => []
  | fuel + 1, ctB, content =>
    if emailMaintype ctB ≠ strBytes "multipart" then [content]
    else
      match emailBoundary ctB with
      | none => [content]
      | some bnd =>
        match splitFirst ([13, 10, 45, 45] ++ bnd) ([13, 10] ++ content) with
        | none => [content]
        | some (_, after) =>
          (extractChunks ([13, 10, 45, 45] ++ bnd) (after.length + 1) after).flatMap
            (fun chunk =>
              walkCollect fuel (partContentType (parseChunk chunk).1)
                (parseChunk chunk).2)

/-- The `Content-Type` entry of the response-header mapping that
`_decode_multipart_message` re-serializes in front of the body (header
names are case-insensitive). -/
def headerCT (headers : List (String × String)) : List Nat :=
  match headers.find? (fun kv => kv.1.data.map Char.toLower == "content-type".data) with
  | some kv => strBytes kv.2
  | none => strBytes "text/plain"

/-- `DICOMWebClient._decode_multipart_message(body, headers)`. -/
def decodeMultipartMessage (body : List Nat) (headers : List (String × String)) :
    List (List Nat) :=
  walkCollect (body.length + 1) (headerCT headers) (stripBlank body)

/-! ### DICOM JSON values and the data-element builder -/

/-- DICOM-JSON values as passed around by `_create_dataelement`
(`null` doubles as Python `None`). -/
inductive JVal where
  | null
  | str (s : String)
  | num (n : Int)
  | arr (l : List JVal)
  | obj (l : List (String × JVal))

/-- The value slot of a built `pydicom.dataelem.DataElement`: either a
JSON-level value passed through or produced by the builder, or the
one-element list holding a nested data set (`[ds]`, VR = SQ).  A data-set
element is a `(tag, vr, value)` triple. -/
inductive DEValue where
  | jval (v : JVal)
  | seq (items : List (String × String × DEValue))

/-- A built data element: tag, VR, value. -/
abbrev DataElem := String × String × DEValue

/-- The `binary_representations` set of `_create_dataelement`. -/
def binaryVRs : List String := ["OB", "OD", "OF", "OL", "OW", "UN"]

/-- Python `isinstance(value, list)`. -/
def JVal.isArr : JVal → Bool
  | .arr _ => true
  | _ => false

/-- Python `len(value)`; raises `TypeError` on values without a length. -/
def pyLen : JVal → Except PyErr Nat
  | .arr l => .ok l.length
  | .obj l => .ok l.length
  | .str s => .ok s.data.length
  | _ => .error .typeError

/-- Python truthiness of a JSON value. -/
def pyTruthy : JVal → Bool
  | .null => false
  | .str s => s != ""
  | .num n => n != 0
  | .arr l => !l.isEmpty
  | .obj l => !l.isEmpty

/-- Python `value[0]`: `IndexError` on an empty sequence, `KeyError` on a
mapping without key `0`, `TypeError` on unsubscriptable values. -/
def pyIndexZero : JVal → Except PyErr JVal
  | .arr [] => .error .indexError
  | .arr (x :: _) => .ok x
  | .str s =>
    match s.data with
    | [] => .error .indexError
    | c :: _ => .ok (.str (String.mk [c]))
  | .obj _ => .error .keyError
  | _ => .error .typeError

/-- First binding of a key in a JSON object. -/
def lookupKey (l : List (String × JVal)) (k : String) : Option JVal :=
  (l.find? (fun kv => kv.1 == k)).map (fun kv => kv.2)

/-- Python `v[k]` for a string key. -/
def pyGetItem (v : JVal) (k : String) : Except PyErr JVal :=
  match v with
  | .obj l =>
    match lookupKey l k with
    | some x => .ok x
    | none => .error .keyError
  | _ => .error .typeError

/-- Substring test, models Python `needle in haystack` for strings. -/
def strContains (needle hay : String) : Bool :=
  (splitFirst needle.data hay.data).isSome

/-- Python `k in v`: key test on mappings, substring test on strings,
membership on lists, `TypeError` otherwise. -/
def pyIn (k : String) (v : JVal) : Except PyErr Bool :=
  match v with
  | .obj l => .ok (l.any (fun kv => kv.1 == k))
  | .str s => .ok (strContains k s)
  | .arr l => .ok (l.any (fun e => match e with | .str s => s == k | _ => false))
  | _ => .error .typeError

/-- The `supported_value_keys` scan of `_create_dataelement`.  The Python
code iterates the set literal `{'Value', 'BulkDataURI', 'InlineBinary'}`,
whose iteration order is implementation-defined; the written order is
used here, which is indistinguishable when at most one of the keys is
present. -/
def findCarrier (val : JVal) : Except PyErr (Option String) :=
  match pyIn "Value" val with
  | .error e => .error e
  | .ok true => .ok (some "Value")
  | .ok false =>
    match pyIn "BulkDataURI" val with
    | .error e => .error e
    | .ok true => .ok (some "BulkDataURI")
    | .ok false =>
      match pyIn "InlineBinary" val with
      | .error e => .error e
      | .ok true => .ok (some "InlineBinary")
      | .ok false => .ok none

/-- Expect a JSON string (the VR of a nested attribute is used as a
string; a non-string would make the downstream pydicom constructor
fail, modelled as `TypeError`). -/
def asStr : JVal → Except PyErr String
  | .str s => .ok s
  | _ => .error .typeError

/-- `pydicom.dataset.Dataset.add`: insert keyed by tag, replacing an
existing element with the same tag.  (pydicom keeps elements sorted by
tag; ordering is irrelevant to the properties proved here.) -/
def dsAdd (ds : List DataElem) (e : DataElem) : List DataElem :=
  if ds.any (fun x => x.1 == e.1) then ds.map (fun x => if x.1 == e.1 then e else x)
  else ds ++ [e]

/-- The PN loop of `_create_dataelement`: a mapping entry contributes its
`Alphabetic` component (`KeyError` when absent), any other entry is
accepted verbatim after a logged warning. -/
def pnItems : List JVal → Except PyErr (List JVal)
  | [] => .ok []
  | v :: rest =>
    let xE : Except PyErr JVal :=
      match v with
      | .obj kvs =>
        match lookupKey kvs "Alphabetic" with
        | some a => .ok a
        | none => .error .keyError
      | _ => .ok v
    match xE with
    | .error e => .error e
    | .ok x =>
      match pnItems rest with
      | .error e => .error e
      | .ok xs => .ok (x :: xs)

/-- `_create_dataelement(tag, vr, value)`.  `vmL` models
`pydicom.datadict.dictionary_VM`: `none` is the `KeyError` of a
private/unknown tag, answered by the `str(len(value))` fallback.  The
first argument is recursion fuel (the SQ branch recurses into nested
attributes); logging calls are not modelled. -/
def createDE (vmL : String → Option String) :
    Nat → String → String → JVal → Except PyErr DataElem
  | 0, _, _, _ => .error .fuelOut
  | fuel + 1, tag, vr, value =>
    let vmE : Except PyErr String :=
      match vmL tag with
      | some s => .ok s
      | none =>
        match pyLen value with
        | .ok n => .ok (toString n)
        | .error e => .error e
    match vmE with
    | .error e => .error e
    | .ok vm =>
      if vr ∉ binaryVRs ∧ value.isArr = false then
        .error (.dicomJson ("\"Value\" of data element \"" ++ tag ++ "\" must be an array."))
      else if vr = "SQ" then
        match pyIndexZero value with
        | .error e => .error e
        | .ok first =>
          let dsE : Except PyErr (List DataElem) :=
            match first with
            | .null => .ok []
            | .obj kvs =>
              kvs.foldl (fun acc kv =>
                match acc with
                | .error e => .error e
                | .ok ds =>
                  match pyIn "vr" kv.2 with
                  | .error e => .error e
                  | .ok hasVr =>
                    if hasVr = false then
                      .error (.dicomJson ("Data element \"" ++ tag ++ "\" must have key \"vr\"."))
                    else
                      match findCarrier kv.2 with
                      | .error e => .error e
                      | .ok none => .ok (dsAdd ds (tag, vr, .jval .null))
                      | .ok (some ck) =>
                        match pyGetItem kv.2 "vr" with
                        | .error e => .error e
                        | .ok vrv =>
                          match asStr vrv with
                          | .error e => .error e
                          | .ok nvr =>
                            match pyGetItem kv.2 ck with
                            | .error e => .error e
                            | .ok sub =>
                              match createDE vmL fuel kv.1 nvr sub with
                              | .error e => .error e
                              | .ok e2 => .ok (dsAdd ds e2)) (.ok [])
            | _ => .error .attributeError
          match dsE with
          | .error e => .error e
          | .ok ds => .ok (tag, vr, .seq ds)
      else if vr = "PN" then
        match value with
        | .arr l =>
          match pnItems l with
          | .error e => .error e
          | .ok items => .ok (tag, vr, .jval (.arr items))
        | _ => .error .typeError
      else
        if vm = "1" then
          if vr ∈ binaryVRs then .ok (tag, vr, .jval value)
          else if pyTruthy value then
            match pyIndexZero value with
            | .error e => .error e
            | .ok v0 => .ok (tag, vr, .jval v0)
          else .ok (tag, vr, .jval value)
        else
          match pyLen value with
          | .error e => .error e
          | .ok n =>
            if n = 1 then
              match pyIndexZero value with
              | .error e => .error e
              | .ok v0 =>
                match v0 with
                | .str s => .ok (tag, vr, .jval (.arr ((pySplitChar s '\\').map JVal.str)))
                | _ => .ok (tag, vr, .jval value)
            else .ok (tag, vr, .jval value)

/-- One iteration of the `load_json_dataset` loop: read the mandatory
`vr` (an unguarded lookup), read `Value` with the `[None]` fallback,
build the element and add it to the data set; a previously raised
exception short-circuits. -/
def loadStep (vmL : String → Option String) (fuel : Nat)
    (acc : Except PyErr (List DataElem)) (kv : String × JVal) :
    Except PyErr (List DataElem) :=
  match acc with
  | .error e => .error e
  | .ok ds =>
    match pyGetItem kv.2 "vr" with
    | .error e => .error e
    | .ok vrv =>
      match asStr vrv with
      | .error e => .error e
      | .ok vr =>
        let vE : Except PyErr JVal :=
          match pyGetItem kv.2 "Value" with
          | .ok v => .ok v
          | .error .keyError => .ok (.arr [.null])
          | .error e => .error e
        match vE with
        | .error e => .error e
        | .ok v =>
          match createDE vmL fuel kv.1 vr v with
          | .error e => .error e
          | .ok de => .ok (dsAdd ds de)

/-- `load_json_dataset(dataset)`: the JSON object is the ordered list of
its key/value pairs. -/
def loadJsonDataset (vmL : String → Option String) (fuel : Nat)
    (dataset : List (String × JVal)) : Except PyErr (List DataElem) :=
  dataset.foldl (loadStep vmL fuel) (.ok [])

/-! ### Photometric-interpretation mapping (`_map_color_mode`) -/

/-- The fixed `color_map` dictionary of `_map_color_mode`. -/
def colorMap : List (String × String) :=
  [("RGB", "RGB"), ("MONOCHROME2", "L"), ("YBR_FULL_422", "YCbCr")]

/-- `_map_color_mode(photometic_interpretation)`.  The source wraps the
dictionary lookup in `try ... except IndexError`, but a missing
dictionary key raises `KeyError`, which the `IndexError` handler never
catches; the `ValueError` branch is therefore dead code and the
`KeyError` escapes to the caller. -/
def mapColorMode (photometic_interpretation : String) : Except PyErr String :=
  match colorMap.find? (fun kv => kv.1 == photometic_interpretation) with
  | some kv => .ok kv.2
  | none => .error .keyError

/-! ### Derived forms used by the multipart round-trip development -/

/-- The part delimiter `\r\n--boundary`, as bytes. -/
def dlm (b : String) : List Nat := [13, 10, 45, 45] ++ strBytes b

/-- The header block `_encode_multipart_message` writes for each part:
the line break closing the boundary line, then the `Content-Type`
header line. -/
def hdrBlock (t : String) : List Nat := [13, 10] ++ strBytes ("Content-Type: " ++ t)

/-- One raw chunk of the encoded body, as delimited text: part header
block, blank line, payload. -/
def chunkOf (t : String) (p : List Nat) : List Nat :=
  hdrBlock t ++ ([13, 10, 13, 10] ++ p)

/-- The encoded text that follows the start delimiter: raw chunks
interleaved with delimiters, closed by the final double dash. -/
def glue (d : List Nat) : List (List Nat) → List Nat
  | [] => [45, 45]
  | c :: cs => c ++ (d ++ glue d cs)

/-- Fixed VM-lookup stubs used at concrete evaluation points. -/
def vmNone : String → Option String := fun _ => none

/-- VM lookup answering `'1'` for every tag. -/
def vmOne : String → Option String := fun _ => some "1"

/-- VM lookup answering `'6'` for every tag. -/
def vmSix : String → Option String := fun _ => some "6"

/-- Test for a one-element list holding a JSON string, the shape that
triggers the backslash split of `_create_dataelement`. -/
def isSingleStr : List JVal → Bool
  | [JVal.str _] => true
  | _ => false

theorem startsWithL_iff {α : Type} [DecidableEq α] (d l : List α) :
    startsWithL d l = true ↔ ∃ t, d ++ t = l := by
  induction d generalizing l with
  | nil => simp [startsWithL]
  | cons a as ih =>
    cases l with
    | nil =>
      simp only [startsWithL]
      constructor
      · intro h; cases h
      · rintro ⟨t, h⟩; cases h
    | cons b bs =>
      simp only [startsWithL]
      constructor
      · intro h
        by_cases hab : a = b
        · subst hab
          simp only [if_pos rfl] at h
          obtain ⟨t, ht⟩ := (ih bs).mp h
          exact ⟨t, by simp [ht]⟩
        · simp [hab] at h
      · rintro ⟨t, ht⟩
        have hab : a = b := by
          have := congrArg (fun l => List.head? l) ht
          simpa using this
        subst hab
        have hbs : as ++ t = bs := by
          simpa using congrArg List.tail ht
        simp [if_pos rfl, (ih bs).mpr ⟨t, hbs⟩]

theorem startsWithL_append_self {α : Type} [DecidableEq α] (d y : List α) :
    startsWithL d (d ++ y) = true :=
  (startsWithL_iff d (d ++ y)).mpr ⟨y, rfl⟩

theorem startsWithL_getElem {α : Type} [DecidableEq α] {d l : List α}
    (h : startsWithL d l = true) {j : Nat} (hj : j < d.length) :
    l[j]? = d[j]? := by
  obtain ⟨t, ht⟩ := (startsWithL_iff d l).mp h
  subst ht
  simp [List.getElem?_append, hj]

/-- A position-`j` mismatch refutes the prefix test. -/
theorem startsWithL_eq_false_of_ne {α : Type} [DecidableEq α] {d l : List α}
    (j : Nat) (hj : j < d.length) (h : l[j]? ≠ d[j]?) :
    startsWithL d l = false := by
  by_contra hc
  have : startsWithL d l = true := by
    cases hx : startsWithL d l
    · exact absurd hx hc
    · rfl
  exact h (startsWithL_getElem this hj)

theorem startsWithL_of_length_le {α : Type} [DecidableEq α] {d x : List α} (z : List α)
    (h : startsWithL d (x ++ z) = true) (hl : d.length ≤ x.length) :
    startsWithL d x = true := by
  obtain ⟨t, ht⟩ := (startsWithL_iff d (x ++ z)).mp h
  refine (startsWithL_iff d x).mpr ⟨x.drop d.length, ?_⟩
  have htake : (d ++ t).take d.length = d := by simp
  have : x.take d.length = d := by
    have := congrArg (fun l => List.take d.length l) ht
    simpa [List.take_append_of_le_length hl] using this.symm
  calc d ++ x.drop d.length = x.take d.length ++ x.drop d.length := by rw [this]
    _ = x := by simp

theorem splitFirst_cons_pos {α : Type} [DecidableEq α] {d : List α} {a : α} {t : List α}
    (h : startsWithL d (a :: t) = true) :
    splitFirst d (a :: t) = some ([], (a :: t).drop d.length) := by
  simp [splitFirst, h]

theorem splitFirst_cons_neg {α : Type} [DecidableEq α] {d : List α} {a : α} {t : List α}
    (h : startsWithL d (a :: t) = false) :
    splitFirst d (a :: t) = (splitFirst d t).map (fun xy => (a :: xy.1, xy.2)) := by
  simp [splitFirst, h]

theorem splitFirst_none_iff {α : Type} [DecidableEq α] (d l : List α) :
    splitFirst d l = none ↔ ∀ i, startsWithL d (l.drop i) = false := by
  induction l with
  | nil =>
    simp only [splitFirst, List.drop_nil]
    by_cases hd : startsWithL d [] = true
    · simp [hd]
    · have := (Bool.not_eq_true _).mp hd
      simp [this]
  | cons a t ih =>
    by_cases h0 : startsWithL d (a :: t) = true
    · rw [splitFirst_cons_pos h0]
      constructor
      · intro h; cases h
      · intro h
        have := h 0
        simp only [List.drop_zero] at this
        rw [h0] at this; cases this
    · have h0' : startsWithL d (a :: t) = false := (Bool.not_eq_true _).mp h0
      rw [splitFirst_cons_neg h0']
      constructor
      · intro h i
        have hnone : splitFirst d t = none := by
          cases hx : splitFirst d t with
          | none => rfl
          | some v => rw [hx] at h; simp at h
        cases i with
        | zero => simpa using h0'
        | succ n => simpa using (ih.mp hnone) n
      · intro h
        have : splitFirst d t = none := ih.mpr (fun i => by simpa using h (i + 1))
        simp [this]

theorem splitFirst_self {α : Type} [DecidableEq α] (d y : List α) :
    splitFirst d (d ++ y) = some ([], y) := by
  cases hdy : d ++ y with
  | nil =>
    have hdn : d = [] := by
      cases d with
      | nil => rfl
      | cons a as => simp at hdy
    have hyn : y = [] := by
      subst hdn; simpa using hdy
    subst hdn; subst hyn
    simp [splitFirst, startsWithL]
  | cons b bs =>
    have hsw : startsWithL d (b :: bs) = true := by
      rw [← hdy]; exact startsWithL_append_self d y
    rw [splitFirst_cons_pos hsw]
    rw [← hdy]
    simp

theorem splitFirst_append_general {α : Type} [DecidableEq α] (d x y : List α)
    (h : ∀ i, i < x.length → startsWithL d ((x ++ (d ++ y)).drop i) = false) :
    splitFirst d (x ++ (d ++ y)) = some (x, y) := by
  induction x with
  | nil =>
    simpa using splitFirst_self d y
  | cons a x' ih =>
    have h0 : startsWithL d ((a :: x') ++ (d ++ y)) = false := by
      simpa using h 0 (by simp)
    rw [List.cons_append] at h0 ⊢
    rw [splitFirst_cons_neg h0]
    rw [ih (fun i hi => by simpa using h (i + 1) (by simpa using Nat.succ_lt_succ hi))]
    rfl

/-- When the pattern starts with a byte that occurs nowhere else in it, an
occurrence of the pattern cannot straddle the boundary between a
pattern-free left part and the pattern itself, so the first occurrence in
`x ++ d ++ y` sits exactly after `x`. -/
theorem splitFirst_append_unique {α : Type} [DecidableEq α] (c : α) (ds x y : List α)
    (hx : splitFirst (c :: ds) x = none) (hc : c ∉ ds) :
    splitFirst (c :: ds) (x ++ ((c :: ds) ++ y)) = some (x, y) := by
  set d : List α := c :: ds with hd
  apply splitFirst_append_general
  intro i hi
  have hdrop : (x ++ (d ++ y)).drop i = x.drop i ++ (d ++ y) :=
    List.drop_append_of_le_length (Nat.le_of_lt hi)
  rw [hdrop]
  set sx : List α := x.drop i with hsx
  have hsxlen : sx.length = x.length - i := by simp [hsx]
  have hsxpos : 1 ≤ sx.length := by omega
  by_cases hlen : d.length ≤ sx.length
  · apply (Bool.not_eq_true _).mp
    intro hsw
    have hswx : startsWithL d sx = true := startsWithL_of_length_le _ hsw hlen
    have := (splitFirst_none_iff d x).mp hx i
    rw [← hsx] at this
    rw [this] at hswx
    cases hswx
  · apply (Bool.not_eq_true _).mp
    intro hsw
    have hk : sx.length < d.length := Nat.lt_of_not_le hlen
    have h1 : (sx ++ (d ++ y))[sx.length]? = d[sx.length]? :=
      startsWithL_getElem hsw hk
    have h2 : (sx ++ (d ++ y))[sx.length]? = some c := by
      rw [List.getElem?_append_right (Nat.le_refl _)]
      simp [hd]
    have h3 : d[sx.length]? = ds[sx.length - 1]? := by
      rw [hd]
      cases hn : sx.length with
      | zero => omega
      | succ n => simp
    have h4 : ds[sx.length - 1]? = some c := by
      rw [← h3, ← h1, h2]
    exact hc (List.mem_iff_getElem?.mpr ⟨sx.length - 1, h4⟩)

theorem strBytes_append (a b : String) :
    strBytes (a ++ b) = strBytes a ++ strBytes b := by
  simp [strBytes, String.data_append]

theorem startsWithL_nil_right {α : Type} [DecidableEq α] (a : α) (as : List α) :
    startsWithL (a :: as) [] = false := rfl

theorem encBody_cons (t b : String) (p : List Nat) (ps : List (List Nat)) :
    encBody t b (p :: ps) =
      strBytes ("\r\n--" ++ b ++ "\r\nContent-Type: " ++ t ++ "\r\n\r\n") ++
        (p ++ encBody t b ps) := by
  simp [encBody, List.append_assoc]

/-- The encoded body, regrouped as start delimiter followed by the glued
chunk list. -/
theorem encBody_glue (t b : String) (P : List (List Nat)) :
    encBody t b P = dlm b ++ glue (dlm b) (P.map (chunkOf t)) := by
  induction P with
  | nil =>
    show strBytes ("\r\n--" ++ b ++ "--") = _
    rw [strBytes_append, strBytes_append]
    simp [dlm, glue]
    rfl
  | cons p ps ih =>
    rw [encBody_cons, ih, List.map_cons, glue]
    rw [strBytes_append, strBytes_append, strBytes_append, strBytes_append]
    have h1 : strBytes "\r\n--" = [13, 10, 45, 45] := rfl
    have h2 : strBytes "\r\nContent-Type: " = [13, 10] ++ strBytes "Content-Type: " := rfl
    have h3 : strBytes "\r\n\r\n" = [13, 10, 13, 10] := rfl
    have h4 : strBytes ("Content-Type: " ++ t) = strBytes "Content-Type: " ++ strBytes t :=
      strBytes_append _ _
    simp [dlm, chunkOf, hdrBlock, h1, h2, h3, h4, List.append_assoc]

theorem startsWithL_false_at (d l : List Nat) (j : Nat) (a c : Nat)
    (hd : d[j]? = some a) (hl : l[j]? = some c) (hne : c ≠ a) :
    startsWithL d l = false := by
  apply startsWithL_eq_false_of_ne j (List.getElem?_eq_some.mp hd).1
  rw [hd, hl]
  simp [hne]

theorem dlm_getElem_zero (b : String) : (dlm b)[0]? = some 13 := rfl

theorem dlm_getElem_two (b : String) : (dlm b)[2]? = some 45 := rfl

/-- The delimiter does not occur inside a raw chunk: the chunk's header
block contains no carriage return beyond the two line breaks that are
followed by bytes other than the double dash, and the payload (taken with
its preceding line break) is delimiter-free by hypothesis. -/
theorem chunkOf_noOcc (t b : String) (p : List Nat)
    (ht : ∀ x ∈ strBytes ("Content-Type: " ++ t), x ≠ 13)
    (hp : splitFirst (dlm b) ([13, 10] ++ p) = none) :
    splitFirst (dlm b) (chunkOf t p) = none := by
  set T := strBytes ("Content-Type: " ++ t) with hT
  set z : List Nat := 13 :: 10 :: 13 :: 10 :: p with hz
  have hch : chunkOf t p = 13 :: 10 :: (T ++ z) := by
    simp [chunkOf, hdrBlock, hz]
  have hT0 : T[0]? = some 67 := by
    rw [hT, strBytes_append]; rfl
  have hTpos : 0 < T.length := (List.getElem?_eq_some.mp hT0).1
  apply (splitFirst_none_iff _ _).mpr
  intro i
  rw [hch]
  match i with
  | 0 =>
    rw [List.drop_zero]
    apply startsWithL_false_at _ _ 2 45 67 (dlm_getElem_two b) _ (by decide)
    show (13 :: 10 :: (T ++ z))[2]? = some 67
    rw [show (2 : Nat) = 0 + 1 + 1 from rfl, List.getElem?_cons_succ,
      List.getElem?_cons_succ, List.getElem?_append_left hTpos, hT0]
  | 1 =>
    apply startsWithL_false_at _ _ 0 13 10 (dlm_getElem_zero b) _ (by decide)
    rfl
  | (k + 2) =>
    have hdrop : (13 :: 10 :: (T ++ z)).drop (k + 2) = (T ++ z).drop k := by
      simp
    rw [hdrop]
    rcases Nat.lt_or_ge k T.length with hk | hk
    · have hget : ((T ++ z).drop k)[0]? = some T[k] := by
        rw [List.getElem?_drop, Nat.add_zero, List.getElem?_append_left hk]
        exact List.getElem?_eq_getElem hk
      exact startsWithL_false_at _ _ 0 13 (T[k]) (dlm_getElem_zero b) hget
        (ht _ (List.getElem_mem hk))
    · have hsplit : (T ++ z).drop k = z.drop (k - T.length) := by
        rw [show k = T.length + (k - T.length) from by omega]
        rw [← List.drop_drop, List.drop_left]
        congr 1
        omega
      rw [hsplit]
      match hm : k - T.length with
      | 0 =>
        exact startsWithL_false_at _ _ 2 45 13 (dlm_getElem_two b) rfl (by decide)
      | 1 =>
        exact startsWithL_false_at _ _ 0 13 10 (dlm_getElem_zero b) rfl (by decide)
      | (m + 2) =>
        have : z.drop (m + 2) = ([13, 10] ++ p).drop m := by
          simp [hz]
        rw [this]
        exact (splitFirst_none_iff _ _).mp hp m

/-- A pattern whose first byte is a carriage return does not occur in a
carriage-return-free byte sequence. -/
theorem splitFirst_none_of_no13 (d l : List Nat) (hd : d[0]? = some 13)
    (h : ∀ x ∈ l, x ≠ 13) : splitFirst d l = none := by
  apply (splitFirst_none_iff _ _).mpr
  intro i
  cases hx : (l.drop i)[0]? with
  | none =>
    have hnil : l.drop i = [] := by
      cases hdr : l.drop i with
      | nil => rfl
      | cons c cs => rw [hdr] at hx; simp at hx
    rw [hnil]
    cases d with
    | nil => simp at hd
    | cons a as => exact startsWithL_nil_right a as
  | some y =>
    have hy : y ∈ l := List.mem_of_mem_drop (List.mem_iff_getElem?.mpr ⟨0, hx⟩)
    exact startsWithL_false_at _ _ 0 13 y hd hx (h y hy)

/-- A raw chunk splits at its (unique) blank line into the header block
and the payload. -/
theorem parseChunk_chunkOf (t : String) (p : List Nat)
    (ht : ∀ x ∈ strBytes ("Content-Type: " ++ t), x ≠ 13) :
    parseChunk (chunkOf t p) = (hdrBlock t, p) := by
  set T := strBytes ("Content-Type: " ++ t) with hT
  have hT0 : T[0]? = some 67 := by rw [hT, strBytes_append]; rfl
  have hTpos : 0 < T.length := (List.getElem?_eq_some.mp hT0).1
  have key : splitFirst [13, 10, 13, 10] (hdrBlock t ++ ([13, 10, 13, 10] ++ p)) =
      some (hdrBlock t, p) := by
    apply splitFirst_append_general
    intro i hi
    have hlen : (hdrBlock t).length = 2 + T.length := by
      simp [hdrBlock, hT]
      omega
    have hfull : hdrBlock t ++ ([13, 10, 13, 10] ++ p) =
        13 :: 10 :: (T ++ (13 :: 10 :: 13 :: 10 :: p)) := by
      simp [hdrBlock, hT]
    rw [hfull]
    match i, hi with
    | 0, _ =>
      rw [List.drop_zero]
      apply startsWithL_false_at _ _ 2 13 67 rfl _ (by decide)
      show (13 :: 10 :: (T ++ _))[2]? = some 67
      rw [show (2 : Nat) = 0 + 1 + 1 from rfl, List.getElem?_cons_succ,
        List.getElem?_cons_succ, List.getElem?_append_left hTpos, hT0]
    | 1, _ =>
      exact startsWithL_false_at _ _ 0 13 10 rfl rfl (by decide)
    | (k + 2), hi =>
      have hk : k < T.length := by rw [hlen] at hi; omega
      have hdrop : (13 :: 10 :: (T ++ (13 :: 10 :: 13 :: 10 :: p))).drop (k + 2) =
          (T ++ (13 :: 10 :: 13 :: 10 :: p)).drop k := by simp
      rw [hdrop]
      have hget : ((T ++ (13 :: 10 :: 13 :: 10 :: p)).drop k)[0]? = some T[k] := by
        rw [List.getElem?_drop, Nat.add_zero, List.getElem?_append_left hk]
        exact List.getElem?_eq_getElem hk
      exact startsWithL_false_at _ _ 0 13 (T[k]) rfl hget (ht _ (List.getElem_mem hk))
  have hco : chunkOf t p = hdrBlock t ++ ([13, 10, 13, 10] ++ p) := rfl
  rw [parseChunk, hco, key]

/-- The content-type value of the header block written by the encoder is
exactly the inner type. -/
theorem partContentType_hdrBlock (t : String) (htc : ∀ x ∈ strBytes t, x ≠ 13) :
    partContentType (hdrBlock t) = strBytes t := by
  have hshape : hdrBlock t = [13, 10] ++ (strBytes "Content-Type: " ++ strBytes t) := by
    simp [hdrBlock, strBytes_append]
  have hsplit : splitFirst (strBytes "Content-Type: ") (hdrBlock t) =
      some ([13, 10], strBytes t) := by
    rw [hshape]
    apply splitFirst_append_general
    intro i hi
    match i, hi with
    | 0, _ => exact startsWithL_false_at _ _ 0 67 13 rfl rfl (by decide)
    | 1, _ => exact startsWithL_false_at _ _ 0 67 10 rfl rfl (by decide)
  have hnone := splitFirst_none_of_no13 [13, 10] (strBytes t) rfl htc
  simp [partContentType, hsplit, hnone]

theorem glue_length_ge (d : List Nat) (hd : 1 ≤ d.length) (cs : List (List Nat)) :
    cs.length ≤ (glue d cs).length := by
  induction cs with
  | nil => simp [glue]
  | cons c t ih =>
    simp only [glue, List.length_append, List.length_cons]
    omega

/-- Cutting the glued chunk text recovers exactly the chunk list, when no
chunk contains the delimiter and every chunk opens with the carriage
return of its header block. -/
theorem extractChunks_glue (b : String) (hb : ∀ x ∈ strBytes b, x ≠ 13)
    (chunks : List (List Nat)) :
    ∀ fuel, chunks.length < fuel →
      (∀ ch ∈ chunks, splitFirst (dlm b) ch = none ∧ ch[0]? = some 13) →
      extractChunks (dlm b) fuel (glue (dlm b) chunks) = chunks := by
  induction chunks with
  | nil =>
    intro fuel hf _
    match fuel, hf with
    | (f + 1), _ =>
      show extractChunks (dlm b) (f + 1) [45, 45] = []
      simp [extractChunks, startsWithL]
  | cons ch cs ih =>
    intro fuel hf hc
    match fuel, hf with
    | (f + 1), hf =>
      have hc0 := (hc ch (by simp)).2
      have hcn := (hc ch (by simp)).1
      show extractChunks (dlm b) (f + 1) (ch ++ (dlm b ++ glue (dlm b) cs)) = ch :: cs
      have hcpos : 0 < ch.length := (List.getElem?_eq_some.mp hc0).1
      have hsw : startsWithL [45, 45] (ch ++ (dlm b ++ glue (dlm b) cs)) = false := by
        apply startsWithL_false_at _ _ 0 45 13 rfl _ (by decide)
        rw [List.getElem?_append_left hcpos, hc0]
      have h13 : (13 : Nat) ∉ 10 :: 45 :: 45 :: strBytes b := by
        intro hmem
        simp only [List.mem_cons] at hmem
        rcases hmem with h | h | h | h
        · exact absurd h (by decide)
        · exact absurd h (by decide)
        · exact absurd h (by decide)
        · exact hb 13 h rfl
      have hsp : splitFirst (dlm b) (ch ++ (dlm b ++ glue (dlm b) cs)) =
          some (ch, glue (dlm b) cs) :=
        splitFirst_append_unique 13 (10 :: 45 :: 45 :: strBytes b) ch (glue (dlm b) cs) hcn h13
      rw [extractChunks, hsw, hsp]
      simp only [Bool.false_eq_true, if_false]
      rw [ih f (by simp only [List.length_cons] at hf; omega) (fun x hx => hc x (by simp [hx]))]

theorem walkCollect_leaf (fuel : Nat) (ctB content : List Nat)
    (h : emailMaintype ctB ≠ strBytes "multipart") :
    walkCollect (fuel + 1) ctB content = [content] := by
  simp [walkCollect, h]

theorem flatMap_map_id {α β : Type} (l : List α) (f : α → β) (g : β → List α)
    (h : ∀ a ∈ l, g (f a) = [a]) : (l.map f).flatMap g = l := by
  induction l with
  | nil => simp
  | cons a t ih =>
    simp only [List.map_cons, List.flatMap_cons, h a (by simp)]
    rw [ih (fun x hx => h x (by simp [hx]))]
    rfl

theorem headerCT_single (ct : String) : headerCT [("Content-Type", ct)] = strBytes ct := by
  have hcond : (List.map Char.toLower "Content-Type".data == "content-type".data) = true := by
    decide
  simp [headerCT, List.find?_cons, hcond]

theorem walkCollect_succ (fuel : Nat) (ctB content : List Nat) :
    walkCollect (fuel + 1) ctB content =
      if emailMaintype ctB ≠ strBytes "multipart" then [content]
      else
        match emailBoundary ctB with
        | none => [content]
        | some bnd =>
          match splitFirst ([13, 10, 45, 45] ++ bnd) ([13, 10] ++ content) with
          | none => [content]
          | some (_, after) =>
            (extractChunks ([13, 10, 45, 45] ++ bnd) (after.length + 1) after).flatMap
              (fun chunk =>
                walkCollect fuel (partContentType (parseChunk chunk).1)
                  (parseChunk chunk).2) := by
  rfl

/-- C1 (corrected): the multipart round trip.  For any part list `P` and
content-type string `ct` whose positional encode parse yields type `t`
and boundary `b`, whose decoder-side header parse recovers the same
boundary and a `multipart` maintype, with `t` and `b` free of carriage
returns, `t` not itself of maintype `multipart`, and no part containing
the delimiter `\r\n--b` when prefixed with its closing line break,
decoding the encoded body under the same content type returns exactly
`P`. -/
theorem C1_multipart_roundtrip (P : List (List Nat)) (ct t b : String)
    (henc : encCT ct = some (t, b))
    (hbd : emailBoundary (strBytes ct) = some (strBytes b))
    (hmt : emailMaintype (strBytes ct) = strBytes "multipart")
    (htcr : ∀ x ∈ strBytes t, x ≠ 13)
    (hbcr : ∀ x ∈ strBytes b, x ≠ 13)
    (hpmt : emailMaintype (strBytes t) ≠ strBytes "multipart")
    (hparts : ∀ p ∈ P, splitFirst (dlm b) ([13, 10] ++ p) = none) :
    encodeMultipart P ct = .ok (encBody t b P) ∧
      decodeMultipartMessage (encBody t b P) [("Content-Type", ct)] = P := by
  constructor
  · simp [encodeMultipart, henc]
  · have hTfree : ∀ x ∈ strBytes ("Content-Type: " ++ t), x ≠ 13 := by
      intro x hx
      rw [strBytes_append] at hx
      rcases List.mem_append.mp hx with h | h
      · have hcf : ∀ y ∈ strBytes "Content-Type: ", y ≠ 13 := by decide
        exact hcf x h
      · exact htcr x h
    have hb2 : encBody t b P =
        13 :: 10 :: (45 :: 45 :: (strBytes b ++ glue (dlm b) (P.map (chunkOf t)))) := by
      rw [encBody_glue]; simp [dlm]
    rw [decodeMultipartMessage, headerCT_single, hb2]
    have hstrip :
        stripBlank (13 :: 10 :: (45 :: 45 :: (strBytes b ++ glue (dlm b) (P.map (chunkOf t))))) =
          45 :: 45 :: (strBytes b ++ glue (dlm b) (P.map (chunkOf t))) := by
      simp [stripBlank, startsWithL]
    rw [hstrip]
    have hlen : (13 :: 10 :: (45 :: 45 :: (strBytes b ++ glue (dlm b) (P.map (chunkOf t))))).length + 1 =
        ((45 :: 45 :: (strBytes b ++ glue (dlm b) (P.map (chunkOf t)))).length + 2) + 1 := by
      simp
    rw [hlen, walkCollect_succ, if_neg (not_not_intro hmt)]
    simp only [hbd]
    have hsp : splitFirst ([13, 10, 45, 45] ++ strBytes b)
        ([13, 10] ++ (45 :: 45 :: (strBytes b ++ glue (dlm b) (P.map (chunkOf t))))) =
        some ([], glue (dlm b) (P.map (chunkOf t))) := by
      have hshape : ([13, 10] : List Nat) ++
          (45 :: 45 :: (strBytes b ++ glue (dlm b) (P.map (chunkOf t)))) =
          dlm b ++ glue (dlm b) (P.map (chunkOf t)) := by
        simp [dlm]
      rw [hshape]
      exact splitFirst_self (dlm b) _
    simp only [hsp]
    have hchunks : extractChunks ([13, 10, 45, 45] ++ strBytes b)
        ((glue (dlm b) (P.map (chunkOf t))).length + 1)
        (glue (dlm b) (P.map (chunkOf t))) = P.map (chunkOf t) := by
      apply extractChunks_glue b hbcr
      · have hge := glue_length_ge (dlm b) (by simp [dlm]) (P.map (chunkOf t))
        simp only [List.length_map] at hge ⊢
        omega
      · intro ch hch
        obtain ⟨p, hp, rfl⟩ := List.mem_map.mp hch
        exact ⟨chunkOf_noOcc t b p hTfree (hparts p hp), rfl⟩
    rw [hchunks]
    apply flatMap_map_id
    intro p hp
    rw [parseChunk_chunkOf t p hTfree, partContentType_hdrBlock t htcr]
    exact walkCollect_leaf _ _ p hpmt

theorem loadStep_error (vmL : String → Option String) (fuel : Nat) (e : PyErr)
    (kv : String × JVal) : loadStep vmL fuel (.error e) kv = .error e := rfl

theorem loadFold_error (vmL : String → Option String) (fuel : Nat) (e : PyErr)
    (l : List (String × JVal)) :
    l.foldl (loadStep vmL fuel) (.error e) = .error e := by
  induction l with
  | nil => rfl
  | cons kv rest ih => rw [List.foldl_cons, loadStep_error, ih]

/-- C4: `_map_color_mode` on an unsupported photometric interpretation
such as `"FOO"` raises an uncaught `KeyError`: the dictionary lookup
raises `KeyError`, the handler catches only `IndexError`, and the
`ValueError` branch (the unsupported-interpretation error the
documentation promises) is dead code. -/
theorem C4_unsupported_pi_keyerror :
    mapColorMode "FOO" = .error .keyError ∧
      mapColorMode "FOO" ≠ .error .valueError := by
  refine ⟨rfl, ?_⟩
  intro h
  rw [show mapColorMode "FOO" = .error .keyError from rfl] at h
  injection h with h2
  cases h2

/-- C9: an SQ attribute whose raw `Value` is the empty array makes
`_create_dataelement` perform the unguarded `value[0]`, which fails with
`IndexError` (not with the `DICOMJSONError` used for malformed
attributes). -/
theorem C9_sq_empty_index_error (vmL : String → Option String) (fuel : Nat) (tag : String) :
    createDE vmL (fuel + 1) tag "SQ" (.arr []) = .error .indexError := by
  cases hvm : vmL tag <;>
    simp [createDE, hvm, pyLen, pyIndexZero, binaryVRs, JVal.isArr]

/-- C2 (corrected): a part declared `multipart/*` whose body is not
multipart-structured (its declared boundary occurs nowhere, the
single-frame server quirk) is not skipped: decode returns its entire
payload as one element. -/
theorem C2_defective_multipart_payload (body : List Nat) (ct : String) (bnd : List Nat)
    (hmt : emailMaintype (strBytes ct) = strBytes "multipart")
    (hbd : emailBoundary (strBytes ct) = some bnd)
    (hno : splitFirst ([13, 10, 45, 45] ++ bnd) ([13, 10] ++ stripBlank body) = none) :
    decodeMultipartMessage body [("Content-Type", ct)] = [stripBlank body] := by
  rw [decodeMultipartMessage, headerCT_single, walkCollect_succ, if_neg (not_not_intro hmt)]
  simp only [hbd, hno]

theorem C2_defective_multipart_payload_witness :
    decodeMultipartMessage (strBytes "\r\nFRAME")
      [("Content-Type", "multipart/related; type=\"application/octet-stream\"; boundary=\"ab\"")] =
      [strBytes "FRAME"] := by
  have h := C2_defective_multipart_payload (strBytes "\r\nFRAME")
    "multipart/related; type=\"application/octet-stream\"; boundary=\"ab\"" (strBytes "ab")
    (by decide) (by decide) (by decide)
  rw [h]
  rfl

/-- C2, the claim as stated is false: on a message whose single part is
declared `multipart/related` but whose body contains no boundary, decode
returns one element (the whole payload), not the empty sequence. -/
theorem C2_counterexample :
    decodeMultipartMessage (strBytes "\r\nJUNK")
      [("Content-Type", "multipart/related; type=\"application/dicom\"; boundary=\"xyz\"")] =
      [strBytes "JUNK"] ∧
    ([strBytes "JUNK"] : List (List Nat)) ≠ [] := by
  exact ⟨by decide, by decide⟩

/-- C5 (corrected): encode requires the content type to split on `;` into
exactly three segments; any other arity fails with the `ValueError` of
tuple unpacking and produces no body.  Parameter names are never
checked (see the counterexample for a three-segment content type with
neither a `type` nor a `boundary` parameter that still yields a body). -/
theorem C5_split_arity (data : List (List Nat)) (ct : String)
    (h : (pySplitChar ct ';').length ≠ 3) :
    encodeMultipart data ct = .error .valueError := by
  have hnone : encCT ct = none := by
    unfold encCT
    split
    · rename_i x seg1 seg2 heq
      exact absurd (by rw [heq]; rfl) h
    · rfl
  simp [encodeMultipart, hnone]

theorem C5_split_arity_witness :
    encodeMultipart [[65]] "multipart/related; type=\"application/dicom\"" =
      .error .valueError :=
  C5_split_arity [[65]] "multipart/related; type=\"application/dicom\"" (by decide)

/-- C5, the claim as stated is false: a content type with three `;`
segments but with neither a `boundary=` nor a `type=` parameter does not
fail; encode produces a body from the positionally extracted garbage. -/
theorem C5_counterexample :
    strContains "boundary=" "multipart/related; foo=\"a\"; bar=\"b\"" = false ∧
    strContains "type=" "multipart/related; foo=\"a\"; bar=\"b\"" = false ∧
    encodeMultipart [[65]] "multipart/related; foo=\"a\"; bar=\"b\"" =
      .ok (strBytes "\r\n--b\r\nContent-Type: a\r\n\r\n" ++ [65] ++ strBytes "\r\n--b--") := by
  refine ⟨by decide, by decide, by rfl⟩

/-- C6 (corrected): a top-level attribute mapping without the `vr` key
makes `load_json_dataset` fail fast with an uncaught `KeyError` from the
bare `mapping['vr']` lookup -- not with the `DICOMJSONError` used for
malformed attributes -- and no partial data set is returned. -/
theorem C6_missing_vr_keyerror (vmL : String → Option String) (fuel : Nat)
    (tag : String) (m : List (String × JVal)) (rest : List (String × JVal))
    (h : lookupKey m "vr" = none) :
    loadJsonDataset vmL fuel ((tag, .obj m) :: rest) = .error .keyError := by
  have hstep : loadStep vmL fuel (.ok []) (tag, .obj m) = .error .keyError := by
    simp [loadStep, pyGetItem, h]
  rw [loadJsonDataset, List.foldl_cons, hstep, loadFold_error]

theorem C6_missing_vr_keyerror_witness :
    loadJsonDataset vmOne 2
      [("00100010", .obj [("Value", .arr [.str "X"])]),
        ("0020000D", .obj [("vr", .str "UI"), ("Value", .arr [.str "1.2"])])] =
      .error .keyError :=
  C6_missing_vr_keyerror vmOne 2 "00100010" [("Value", .arr [.str "X"])]
    [("0020000D", .obj [("vr", .str "UI"), ("Value", .arr [.str "1.2"])])] rfl

/-- C6, the claim as stated is false: the failure on a missing `vr` is a
`KeyError`, not the `DICOMJSONError` that models
`MalformedAttributeError`. -/
theorem C6_counterexample :
    loadJsonDataset vmOne 2 [("00100010", .obj [("Value", .arr [.str "X"])])] =
      .error .keyError ∧
    (match loadJsonDataset vmOne 2 [("00100010", .obj [("Value", .arr [.str "X"])])] with
      | .error (.dicomJson _) => False
      | _ => True) :=
  ⟨rfl, trivial⟩

/-- C3 (corrected): a nested SQ attribute that has a `vr` key but none of
`Value`, `BulkDataURI`, `InlineBinary` does not make the builder raise;
after the logged warning a placeholder element is added to the nested
data set -- but it carries the ENCLOSING attribute's tag and VR (the
source passes `tag` and `vr`, not `key` and `val['vr']`), with an empty
(`None`) value. -/
theorem C3_missing_carrier_outer_tag (vmL : String → Option String) (fuel : Nat)
    (tag key : String) (kvs : List (String × JVal))
    (hvr : kvs.any (fun kv => kv.1 == "vr") = true)
    (hv : kvs.any (fun kv => kv.1 == "Value") = false)
    (hb : kvs.any (fun kv => kv.1 == "BulkDataURI") = false)
    (hi : kvs.any (fun kv => kv.1 == "InlineBinary") = false) :
    createDE vmL (fuel + 1) tag "SQ" (.arr [.obj [(key, .obj kvs)]]) =
      .ok (tag, "SQ", .seq [(tag, "SQ", .jval .null)]) := by
  cases hvm : vmL tag <;>
    simp [createDE, hvm, pyLen, binaryVRs, JVal.isArr, pyIndexZero, pyIn, findCarrier,
      hvr, hv, hb, hi, dsAdd]

theorem C3_missing_carrier_outer_tag_witness :
    createDE vmOne 1 "0040A730" "SQ" (.arr [.obj [("00080018", .obj [("vr", .str "UI")])]]) =
      .ok ("0040A730", "SQ", .seq [("0040A730", "SQ", .jval .null)]) :=
  C3_missing_carrier_outer_tag vmOne 0 "0040A730" "00080018" [("vr", .str "UI")]
    (by decide) (by decide) (by decide) (by decide)

/-- C3, the claim as stated is false: for the nested attribute
`00080018` with VR `UI` and no value-carrier key, the element emitted
into the nested data set carries the outer tag `0040A730` and the outer
VR `SQ`, which differ from the nested attribute's tag and VR. -/
theorem C3_counterexample :
    createDE vmNone 2 "0040A730" "SQ"
        (.arr [.obj [("00080018", .obj [("vr", .str "UI")])]]) =
      .ok ("0040A730", "SQ", .seq [("0040A730", "SQ", .jval .null)]) ∧
    ("0040A730" : String) ≠ "00080018" ∧ ("SQ" : String) ≠ "UI" :=
  ⟨rfl, by decide, by decide⟩

/-- C10: a PN value entry that is a mapping without the `Alphabetic` key
hits the unguarded `v['Alphabetic']` lookup, so the whole conversion
aborts with an uncaught `KeyError`; the warn-and-accept tolerance
applies only to entries that are not mappings, which are taken
verbatim. -/
theorem C10_pn_missing_alphabetic (vmL : String → Option String) (fuel : Nat)
    (tag : String) (kvs : List (String × JVal))
    (h : lookupKey kvs "Alphabetic" = none) :
    loadJsonDataset vmL (fuel + 1)
        [(tag, .obj [("vr", .str "PN"), ("Value", .arr [.obj kvs])])] =
      .error .keyError ∧
    (∀ s, createDE vmL (fuel + 1) tag "PN" (.arr [.str s]) =
      .ok (tag, "PN", .jval (.arr [.str s]))) := by
  constructor
  · have hde : createDE vmL (fuel + 1) tag "PN" (.arr [.obj kvs]) = .error .keyError := by
      cases hvm : vmL tag <;>
        simp [createDE, hvm, pyLen, binaryVRs, JVal.isArr, pnItems, h]
    rw [loadJsonDataset, List.foldl_cons]
    have hstep : loadStep vmL (fuel + 1) (.ok [])
        (tag, .obj [("vr", .str "PN"), ("Value", .arr [.obj kvs])]) = .error .keyError := by
      simp [loadStep, pyGetItem, lookupKey, asStr, hde]
    rw [hstep]
    rfl
  · intro s
    cases hvm : vmL tag <;>
      simp [createDE, hvm, pyLen, binaryVRs, JVal.isArr, pnItems]

theorem C10_pn_missing_alphabetic_witness :
    loadJsonDataset vmNone 1
        [("00100010", .obj [("vr", .str "PN"),
          ("Value", .arr [.obj [("Ideographic", .str "X")]])])] =
      .error .keyError ∧
    createDE vmNone 1 "00100010" "PN" (.arr [.str "Doe^John"]) =
      .ok ("00100010", "PN", .jval (.arr [.str "Doe^John"])) := by
  have h := C10_pn_missing_alphabetic vmNone 0 "00100010" [("Ideographic", .str "X")] rfl
  exact ⟨h.1, h.2 "Doe^John"⟩

/-- C7: for a non-binary, non-SQ, non-PN VR whose tag has value
multiplicity other than `'1'`, a one-element `Value` array holding a
single string is split on the backslash separator; any other array is
passed through unchanged. -/
theorem C7_backslash_split (vmL : String → Option String) (fuel : Nat)
    (tag vr vmS : String) (l : List JVal)
    (hvm : vmL tag = some vmS) (h1 : vmS ≠ "1")
    (_hnb : vr ∉ binaryVRs) (hsq : vr ≠ "SQ") (hpn : vr ≠ "PN") :
    (∀ s, l = [JVal.str s] →
      createDE vmL (fuel + 1) tag vr (.arr l) =
        .ok (tag, vr, .jval (.arr ((pySplitChar s '\\').map JVal.str)))) ∧
    (isSingleStr l = false →
      createDE vmL (fuel + 1) tag vr (.arr l) = .ok (tag, vr, .jval (.arr l))) := by
  constructor
  · rintro s rfl
    simp [createDE, hvm, h1, hsq, hpn, binaryVRs, JVal.isArr, pyLen, pyIndexZero]
  · intro hss
    match l, hss with
    | [], _ =>
      simp [createDE, hvm, h1, hsq, hpn, binaryVRs, JVal.isArr, pyLen]
    | [JVal.null], _ =>
      simp [createDE, hvm, h1, hsq, hpn, binaryVRs, JVal.isArr, pyLen, pyIndexZero]
    | [JVal.num n], _ =>
      simp [createDE, hvm, h1, hsq, hpn, binaryVRs, JVal.isArr, pyLen, pyIndexZero]
    | [JVal.arr l2], _ =>
      simp [createDE, hvm, h1, hsq, hpn, binaryVRs, JVal.isArr, pyLen, pyIndexZero]
    | [JVal.obj l2], _ =>
      simp [createDE, hvm, h1, hsq, hpn, binaryVRs, JVal.isArr, pyLen, pyIndexZero]
    | (x :: y :: rest), _ =>
      simp [createDE, hvm, h1, hsq, hpn, binaryVRs, JVal.isArr, pyLen]

theorem C7_backslash_split_witness :
    createDE vmSix 1 "00200037" "DS" (.arr [.str "A\\B\\C"]) =
      .ok ("00200037", "DS", .jval (.arr [.str "A", .str "B", .str "C"])) ∧
    createDE vmSix 1 "00200037" "DS" (.arr [.str "A", .str "B"]) =
      .ok ("00200037", "DS", .jval (.arr [.str "A", .str "B"])) := by
  have h := C7_backslash_split vmSix 0 "00200037" "DS" "6" [.str "A\\B\\C"] rfl
    (by decide) (by decide) (by decide) (by decide)
  have h2 := C7_backslash_split vmSix 0 "00200037" "DS" "6" [.str "A", .str "B"] rfl
    (by decide) (by decide) (by decide) (by decide)
  constructor
  · rw [h.1 "A\\B\\C" rfl]
    rfl
  · exact h2.2 (by decide)

/-- Passthrough of the raw value for a binary VR with VM 1. -/
theorem createDE_binary_vm1 (vmL : String → Option String) (fuel : Nat)
    (key bvr : String) (v : JVal) (hbin : bvr ∈ binaryVRs) (hvm : vmL key = some "1") :
    createDE vmL (fuel + 1) key bvr v = .ok (key, bvr, .jval v) := by
  simp only [binaryVRs, List.mem_cons, List.not_mem_nil, or_false] at hbin
  rcases hbin with rfl | rfl | rfl | rfl | rfl | rfl <;>
    simp [createDE, hvm, binaryVRs, JVal.isArr]

/-- The array check of `_create_dataelement` rejects a JSON-string raw
value for any non-binary VR. -/
theorem createDE_nonarray_err (vmL : String → Option String) (fuel : Nat)
    (key nvr u : String) (hnb : nvr ∉ binaryVRs) :
    createDE vmL (fuel + 1) key nvr (.str u) =
      .error (.dicomJson ("\"Value\" of data element \"" ++ key ++ "\" must be an array.")) := by
  cases hvm : vmL key <;> simp [createDE, hvm, pyLen, JVal.isArr, hnb]

/-- One step of the SQ branch on a single nested attribute whose
recursive build succeeds. -/
theorem createDE_sq_single_ok (vmL : String → Option String) (fuel : Nat)
    (tag key : String) (kvs : List (String × JVal)) (nvr ck : String) (sub : JVal)
    (e2 : DataElem)
    (h1 : pyIn "vr" (.obj kvs) = .ok true)
    (h2 : findCarrier (.obj kvs) = .ok (some ck))
    (h3 : pyGetItem (.obj kvs) "vr" = .ok (.str nvr))
    (h4 : pyGetItem (.obj kvs) ck = .ok sub)
    (h5 : createDE vmL fuel key nvr sub = .ok e2) :
    createDE vmL (fuel + 1) tag "SQ" (.arr [.obj [(key, .obj kvs)]]) =
      .ok (tag, "SQ", .seq [e2]) := by
  cases hvmt : vmL tag <;>
    simp [createDE, hvmt, pyLen, JVal.isArr, pyIndexZero, h1, h2, h3, asStr, h4, h5,
      dsAdd, binaryVRs]

/-- One step of the SQ branch on a single nested attribute whose
recursive build raises. -/
theorem createDE_sq_single_err (vmL : String → Option String) (fuel : Nat)
    (tag key : String) (kvs : List (String × JVal)) (nvr ck : String) (sub : JVal)
    (e : PyErr)
    (h1 : pyIn "vr" (.obj kvs) = .ok true)
    (h2 : findCarrier (.obj kvs) = .ok (some ck))
    (h3 : pyGetItem (.obj kvs) "vr" = .ok (.str nvr))
    (h4 : pyGetItem (.obj kvs) ck = .ok sub)
    (h5 : createDE vmL fuel key nvr sub = .error e) :
    createDE vmL (fuel + 1) tag "SQ" (.arr [.obj [(key, .obj kvs)]]) = .error e := by
  cases hvmt : vmL tag <;>
    simp [createDE, hvmt, pyLen, JVal.isArr, pyIndexZero, h1, h2, h3, asStr, h4, h5,
      binaryVRs]

/-- C8 (corrected): a nested SQ attribute carrying its value under
`BulkDataURI` or `InlineBinary` is recursed into with the reference as
the raw value.  For a binary VR the reference is passed through opaquely
without raising; for a non-binary VR the reference (a JSON string, not
an array) hits the array check of the recursive call and raises
`DICOMJSONError`. -/
theorem C8_bulkdata_by_vr (vmL : String → Option String) (fuel : Nat)
    (tag key ck bvr nvr u : String) (v : JVal)
    (hck : ck = "BulkDataURI" ∨ ck = "InlineBinary")
    (hbin : bvr ∈ binaryVRs) (hvm : vmL key = some "1")
    (hnb : nvr ∉ binaryVRs) :
    createDE vmL (fuel + 2) tag "SQ"
        (.arr [.obj [(key, .obj [("vr", .str bvr), (ck, v)])]]) =
      .ok (tag, "SQ", .seq [(key, bvr, .jval v)]) ∧
    createDE vmL (fuel + 2) tag "SQ"
        (.arr [.obj [(key, .obj [("vr", .str nvr), (ck, .str u)])]]) =
      .error (.dicomJson ("\"Value\" of data element \"" ++ key ++ "\" must be an array.")) := by
  constructor
  · rcases hck with rfl | rfl
    · exact createDE_sq_single_ok vmL (fuel + 1) tag key _ bvr "BulkDataURI" v _
        (by simp [pyIn]) (by simp [findCarrier, pyIn]) (by simp [pyGetItem, lookupKey])
        (by simp [pyGetItem, lookupKey]) (createDE_binary_vm1 vmL fuel key bvr v hbin hvm)
    · exact createDE_sq_single_ok vmL (fuel + 1) tag key _ bvr "InlineBinary" v _
        (by simp [pyIn]) (by simp [findCarrier, pyIn]) (by simp [pyGetItem, lookupKey])
        (by simp [pyGetItem, lookupKey]) (createDE_binary_vm1 vmL fuel key bvr v hbin hvm)
  · rcases hck with rfl | rfl
    · exact createDE_sq_single_err vmL (fuel + 1) tag key _ nvr "BulkDataURI" (.str u) _
        (by simp [pyIn]) (by simp [findCarrier, pyIn]) (by simp [pyGetItem, lookupKey])
        (by simp [pyGetItem, lookupKey]) (createDE_nonarray_err vmL fuel key nvr u hnb)
    · exact createDE_sq_single_err vmL (fuel + 1) tag key _ nvr "InlineBinary" (.str u) _
        (by simp [pyIn]) (by simp [findCarrier, pyIn]) (by simp [pyGetItem, lookupKey])
        (by simp [pyGetItem, lookupKey]) (createDE_nonarray_err vmL fuel key nvr u hnb)

theorem C8_bulkdata_by_vr_witness :
    createDE vmOne 2 "0040A730" "SQ"
        (.arr [.obj [("7FE00010",
          .obj [("vr", .str "OB"), ("BulkDataURI", .str "https://x/y")])]]) =
      .ok ("0040A730", "SQ", .seq [("7FE00010", "OB", .jval (.str "https://x/y"))]) ∧
    createDE vmOne 2 "0040A730" "SQ"
        (.arr [.obj [("7FE00010",
          .obj [("vr", .str "UI"), ("BulkDataURI", .str "https://x/y")])]]) =
      .error (.dicomJson "\"Value\" of data element \"7FE00010\" must be an array.") :=
  C8_bulkdata_by_vr vmOne 0 "0040A730" "7FE00010" "BulkDataURI" "OB" "UI" "https://x/y"
    (.str "https://x/y") (Or.inl rfl) (by decide) rfl (by decide)

/-- C8, the claim as stated is false: a nested `BulkDataURI` reference
under the non-binary VR `UI` raises `DICOMJSONError` instead of building
the element. -/
theorem C8_counterexample :
    createDE vmNone 2 "0040A730" "SQ"
        (.arr [.obj [("00080018",
          .obj [("vr", .str "UI"), ("BulkDataURI", .str "https://x/y")])]]) =
      .error (.dicomJson "\"Value\" of data element \"00080018\" must be an array.") := rfl

theorem C1_multipart_roundtrip_witness :
    encodeMultipart [[65], [66]] "multipart/related; type=\"a/b\"; boundary=\"xy\"" =
      .ok (encBody "a/b" "xy" [[65], [66]]) ∧
    decodeMultipartMessage (encBody "a/b" "xy" [[65], [66]])
      [("Content-Type", "multipart/related; type=\"a/b\"; boundary=\"xy\"")] =
      [[65], [66]] :=
  C1_multipart_roundtrip [[65], [66]] "multipart/related; type=\"a/b\"; boundary=\"xy\""
    "a/b" "xy" (by decide) (by decide) (by decide) (by decide) (by decide) (by decide)
    (by decide)

/-- C1, the claim as stated is false: when a part itself contains the
delimiter sequence followed by a well-formed part header, the round trip
splits it, returning two parts instead of the original one. -/
theorem C1_roundtrip_counterexample :
    encodeMultipart [strBytes "A\r\n--xy\r\nContent-Type: a/b\r\n\r\nB"]
        "multipart/related; type=\"a/b\"; boundary=\"xy\"" =
      .ok (encBody "a/b" "xy" [strBytes "A\r\n--xy\r\nContent-Type: a/b\r\n\r\nB"]) ∧
    decodeMultipartMessage
        (encBody "a/b" "xy" [strBytes "A\r\n--xy\r\nContent-Type: a/b\r\n\r\nB"])
        [("Content-Type", "multipart/related; type=\"a/b\"; boundary=\"xy\"")] =
      [strBytes "A", strBytes "B"] ∧
    ([strBytes "A", strBytes "B"] : List (List Nat)) ≠
      [strBytes "A\r\n--xy\r\nContent-Type: a/b\r\n\r\nB"] :=
  ⟨by rfl, by decide, by decide⟩

end DicomWeb
